import Mathlib

/-!
Shallow embedding of the video-processing pipeline of the
Distributed-Video-Processing-Service repository
(`app/video_app/yolo_processor.py`, `app/video_app/tasks.py`,
`app/video_app/minio_client.py`, `app/video_app/models.py`).

Modelling conventions:
* Python floats are embedded as `ℚ` (exact rationals), Python ints as `ℤ`/`ℕ`.
* A decoded frame's pixel buffer is opaque to every verified property, so
  `Frame := ℕ` (an identifier for the buffer).
* The YOLO model, OpenCV decode/encode, wall-clock time and the network are
  external capabilities; they enter as function parameters (`model`, `read`,
  reads lists, timing parameters) exactly where the Python code calls them.
* Fallible Python code (raising exceptions) is embedded with `Except`, and
  `try/finally` resource release is recorded by an explicit `Bool` flag that
  the embedding sets on every path, mirroring the `finally:` blocks.
* `timezone.now()` within one task run is a single parameter `now : ℕ`.
-/

namespace VideoApp

/-- A decoded frame; its pixel contents are opaque to all verified properties. -/
abbrev Frame := Nat

/-- Outcome of one `cap.read()` call: `ok f` is `ret=True` with frame `f`;
`fail` is `ret=False` (end of stream or a decode failure — OpenCV reports
both identically). -/
inductive ReadResult where
  | ok (f : Frame)
  | fail
deriving DecidableEq, Repr

/-- One raw box of the YOLO model output: `box.xyxy` coordinates, class index
(`box.cls`) and confidence (`box.conf`), as read in `_process_frame`. -/
structure RawBox where
  x1 : ℚ
  y1 : ℚ
  x2 : ℚ
  y2 : ℚ
  cls : ℕ
  conf : ℚ
deriving DecidableEq, Repr

/-- The `bbox` dictionary built by `_process_frame`. -/
structure BBox where
  x : ℚ
  y : ℚ
  width : ℚ
  height : ℚ
deriving DecidableEq, Repr

/-- One detection dictionary appended by `_process_frame`. -/
structure DetObj where
  cls : String
  confidence : ℚ
  bbox : BBox
deriving DecidableEq, Repr

/-- The per-frame result dictionary returned by `_process_frame`. -/
structure FrameResult where
  frame_number : ℕ
  objects : List DetObj
  processing_time : ℚ
  object_count : ℕ
deriving DecidableEq, Repr

namespace YOLOProcessor

/-- Conversion of one model box performed inside the loop of
`YOLOProcessor._process_frame` (yolo_processor.py lines 141-161):
`'width': float(x2 - x1), 'height': float(y2 - y1)` — the differences are
stored verbatim; there is no rejection or clamping of degenerate boxes. -/
def convertBox (names : ℕ → String) (b : RawBox) : DetObj :=
  { cls := names b.cls
    confidence := b.conf
    bbox := { x := b.x1, y := b.y1, width := b.x2 - b.x1, height := b.y2 - b.y1 } }

/-- Embedding of `YOLOProcessor._process_frame` (yolo_processor.py lines 120-170).
`names` is `self.model.names`; `modelOut` is the flattened list of boxes the
model call returned for this frame (detections below the confidence threshold
are already excluded by the model call itself); `pt` is the measured
wall-clock processing time. -/
def process_frame (names : ℕ → String) (modelOut : List RawBox)
    (frame_number : ℕ) (pt : ℚ) : FrameResult :=
  let detections := modelOut.map (convertBox names)
  { frame_number := frame_number
    objects := detections
    processing_time := pt
    object_count := detections.length }

/-- The `video_metadata` dictionary embedded in `process_video`'s results
(yolo_processor.py lines 72-78). -/
structure PVMeta where
  fps : ℚ
  frame_count : ℤ
  width : ℤ
  height : ℤ
  duration : ℚ
deriving DecidableEq, Repr

/-- Construction of the metadata embedded by `process_video`:
`'duration': frame_count / fps if fps > 0 else 0`. -/
def PVMeta.ofProps (fps : ℚ) (frame_count width height : ℤ) : PVMeta :=
  { fps := fps
    frame_count := frame_count
    width := width
    height := height
    duration := if fps > 0 then (frame_count : ℚ) / fps else 0 }

/-- The results dictionary returned by `process_video`. -/
structure PVResults where
  total_frames : ℤ
  processed_frames : ℕ
  detections : List FrameResult
  video_metadata : PVMeta
deriving DecidableEq, Repr

/-- The `while True` loop of `YOLOProcessor.process_video` (yolo_processor.py
lines 85-108). `detect f n` is the body `self._process_frame(frame, n)`
including the model call, which may raise (`Except.error`). A `ReadResult.fail`
(or exhaustion of `reads`) is `ret=False`: the loop breaks and the detections
accumulated so far are kept. A detection exception propagates, discarding
them. Drawing overlays and `video_writer.write` mutate only the output
container, never the returned results, and are not represented. -/
def pvLoop (detect : Frame → ℕ → Except String FrameResult) (frame_interval : ℕ) :
    List ReadResult → ℕ → Except String (List FrameResult)
  | [], _ => .ok []
  | .fail :: _, _ => .ok []
  | .ok f :: rest, n =>
    if n % frame_interval == 0 then
      match detect f n with
      | .error e => .error e
      | .ok r =>
        match pvLoop detect frame_interval rest (n + 1) with
        | .error e => .error e
        | .ok l => .ok (r :: l)
    else pvLoop detect frame_interval rest (n + 1)

/-- Embedding of `YOLOProcessor.process_video` (yolo_processor.py lines 35-118).
`fps`, `frame_count`, `width`, `height` are the properties read from the
opened capture; `reads` is the stream of `cap.read()` outcomes; the returned
`Bool` records that the `finally:` block released the capture and any video
writer (it does so on every path, including the exception path). -/
def process_video (detect : Frame → ℕ → Except String FrameResult)
    (fps : ℚ) (frame_count width height : ℤ)
    (reads : List ReadResult) (frame_interval : ℕ)
    (output_path : Option String) :
    Except String PVResults × Bool :=
  let _ := output_path
  let meta := PVMeta.ofProps fps frame_count width height
  match pvLoop detect frame_interval reads 0 with
  | .error e => (.error e, true)
  | .ok dets =>
    (.ok { total_frames := frame_count
           processed_frames := dets.length
           detections := dets
           video_metadata := meta }, true)

/-- Zero padding of `f"frame_{frame_number:06d}.jpg"`. -/
def pad6 (n : ℕ) : String :=
  let s := toString n
  String.mk (List.replicate (6 - s.length) '0') ++ s

/-- The extraction loop of `YOLOProcessor.extract_frames` (yolo_processor.py
lines 221-232): every `frame_interval`-th frame is written to
`os.path.join(output_dir, f"frame_{n:06d}.jpg")` and the path collected. -/
def efLoop (output_dir : String) (frame_interval : ℕ) :
    List ReadResult → ℕ → List String
  | [], _ => []
  | .fail :: _, _ => []
  | .ok _ :: rest, n =>
    if n % frame_interval == 0 then
      (output_dir ++ "/frame_" ++ pad6 n ++ ".jpg") :: efLoop output_dir frame_interval rest (n + 1)
    else efLoop output_dir frame_interval rest (n + 1)

/-- Embedding of `YOLOProcessor.extract_frames` (yolo_processor.py lines 196-238); the
`Bool` records the `finally: cap.release()`. -/
def extract_frames (output_dir : String) (reads : List ReadResult)
    (frame_interval : ℕ) : List String × Bool :=
  (efLoop output_dir frame_interval reads 0, true)

/-- The metadata dictionary returned by `YOLOProcessor.get_video_metadata`. -/
structure VideoMeta where
  fps : ℚ
  frame_count : ℤ
  width : ℤ
  height : ℤ
  duration : ℚ
  resolution : String
  file_size : ℤ
deriving DecidableEq, Repr

/-- Embedding of `YOLOProcessor.get_video_metadata` (yolo_processor.py lines 240-274):
`duration = frame_count / fps if fps > 0 else 0`,
`resolution = f"{width}x{height}"`. -/
def get_video_metadata (fps : ℚ) (frame_count width height : ℤ)
    (file_size : ℤ) : VideoMeta :=
  { fps := fps
    frame_count := frame_count
    width := width
    height := height
    duration := if fps > 0 then (frame_count : ℚ) / fps else 0
    resolution := toString width ++ "x" ++ toString height
    file_size := file_size }

/-- A detector built from a total model capability: the detection call always
succeeds and `_process_frame` packages its boxes (timing abstracted to 0). -/
def mkDetect (model : Frame → List RawBox) (names : ℕ → String) :
    Frame → ℕ → Except String FrameResult :=
  fun f n => .ok (process_frame names (model f) n 0)

end YOLOProcessor

/-! ## The relational records (`models.py`) as touched by the tasks. -/

/-- The `Video` row (models.py lines 28-68), restricted to the fields the
tasks read or write. `none` timestamps and metadata are the NULL defaults. -/
structure VideoRec where
  id : String
  title : String
  status : String
  processing_started_at : Option ℕ
  processing_completed_at : Option ℕ
  error_message : String
  duration : Option ℚ
  frame_count : Option ℤ
  fps : Option ℚ
  resolution : String
  file_size : Option ℤ
  processed_minio_key : String
deriving DecidableEq, Repr

/-- The `ProcessingTask` row (models.py lines 107-131). `progress` defaults
to 0. -/
structure TaskRec where
  task_type : String
  celery_task_id : String
  status : String
  started_at : Option ℕ
  completed_at : Option ℕ
  error_message : String
  progress : ℤ
deriving DecidableEq, Repr

/-- The `ProcessedFrame` row (models.py lines 90-104) as created by
`process_video_task`. -/
structure FrameRec where
  video_id : String
  frame_number : ℕ
  objects_detected : ℕ
  processing_time : ℚ
deriving DecidableEq, Repr

/-- The `DetectedObject` row (models.py lines 71-87) as created by the
tasks. -/
structure ObjRec where
  video_id : String
  frame_number : ℕ
  object_class : String
  confidence : ℚ
  bbox_x : ℚ
  bbox_y : ℚ
  bbox_width : ℚ
  bbox_height : ℚ
deriving DecidableEq, Repr

/-! ## `tasks.py`: the three Celery task bodies.

Each task run is embedded as a function from its inputs (the loaded rows,
the outcomes of the external capabilities, and — where the task has fallible
steps — an explicit failure-injection parameter standing for the site at
which an unhandled exception is raised) to the database state it leaves
behind for the rows it owns. -/

/-- Creation `ProcessingTask.objects.create(..., status='running', started_at=now)`
as done at the top of each task; `progress` takes its column default 0. -/
def mkTaskRec (taskId ttype : String) (now : ℕ) : TaskRec :=
  { task_type := ttype
    celery_task_id := taskId
    status := "running"
    started_at := some now
    completed_at := none
    error_message := ""
    progress := 0 }

/-- The `except Exception` update of the task record shared by all three
tasks: `status='failed'; completed_at=now; error_message=str(e)`. -/
def failTask (t : TaskRec) (now : ℕ) (msg : String) : TaskRec :=
  { t with status := "failed", completed_at := some now, error_message := msg }

/-- The success update of the task record shared by all three tasks:
`status='completed'; completed_at=now; progress=100`. -/
def completeTask (t : TaskRec) (now : ℕ) : TaskRec :=
  { t with status := "completed", completed_at := some now, progress := 100 }

/-- The `except Exception` update of the video row, present only in
`process_video_task` (tasks.py lines 140-143). -/
def failVideo (v : VideoRec) (msg : String) : VideoRec :=
  { v with status := "failed", error_message := msg }

/-- The metadata update of the video row (tasks.py lines 50-55). -/
def applyMeta (v : VideoRec) (m : YOLOProcessor.VideoMeta) : VideoRec :=
  { v with duration := some m.duration
           frame_count := some m.frame_count
           fps := some m.fps
           resolution := m.resolution
           file_size := some m.file_size }

/-- Row built by `ProcessedFrame.objects.create(...)` for one frame result
(tasks.py lines 78-83). -/
def frameRow (vid : String) (fr : FrameResult) : FrameRec :=
  { video_id := vid
    frame_number := fr.frame_number
    objects_detected := fr.object_count
    processing_time := fr.processing_time }

/-- Rows built by `DetectedObject.objects.create(...)` for the objects of one frame
(tasks.py lines 86-96 and 268-278). -/
def objRows (vid : String) (frame_number : ℕ) (objs : List DetObj) : List ObjRec :=
  objs.map fun o =>
    { video_id := vid
      frame_number := frame_number
      object_class := o.cls
      confidence := o.confidence
      bbox_x := o.bbox.x
      bbox_y := o.bbox.y
      bbox_width := o.bbox.width
      bbox_height := o.bbox.height }

/-- The `DetectedObject` rows of one frame result. -/
def objRowsOf (vid : String) (fr : FrameResult) : List ObjRec :=
  objRows vid fr.frame_number fr.objects

/-- Database state left behind by one `process_video_task` run: the video
row, the task's own `ProcessingTask` row, the `ProcessedFrame` and
`DetectedObject` rows it created (in creation order), and the sequence of
`progress` values written to the task row (the creation default first). -/
structure TaskRunState where
  video : VideoRec
  task : TaskRec
  frames : List FrameRec
  objects : List ObjRec
  progressTrace : List ℤ
deriving DecidableEq, Repr

/-- Failure-injection parameter for `process_video_task`: the site of the
run at which an unhandled exception (with message `msg`) is raised, if any.
`atInsert k msg` stands for the database raising (for example the
`UNIQUE(video, frame_number)` constraint) while creating the `(k+1)`-st
`ProcessedFrame` row, after `k` frame results were fully persisted. -/
inductive PVFail where
  | ok
  | atMetadata (msg : String)
  | atProcess (msg : String)
  | atInsert (k : ℕ) (msg : String)
  | atUpload (msg : String)
deriving DecidableEq, Repr

/-- The message carried by an injected failure. -/
def PVFail.msg : PVFail → String
  | .ok => ""
  | .atMetadata m => m
  | .atProcess m => m
  | .atInsert _ m => m
  | .atUpload m => m

/-- Whether the injected failure site is actually executed: the MinIO upload
only runs when the processed output file exists (tasks.py line 100). -/
def PVFail.fires : PVFail → Bool → Bool
  | .ok, _ => false
  | .atUpload _, outputExists => outputExists
  | _, _ => true

/-- The frame results whose rows were persisted before the injected failure
(all of them when the run reaches the upload or completes). -/
def PVFail.persisted : PVFail → List FrameResult → List FrameResult
  | .ok, rs => rs
  | .atMetadata _, _ => []
  | .atProcess _, _ => []
  | .atInsert k _, rs => rs.take k
  | .atUpload _, rs => rs

/-- The successful tail of `process_video_task` (tasks.py lines 98-124). -/
def pvComplete (now : ℕ) (t0 : TaskRec) (v2 : VideoRec)
    (results : List FrameResult) (uploadKey : String)
    (outputExists : Bool) : TaskRunState :=
  let v3 := if outputExists then { v2 with processed_minio_key := uploadKey } else v2
  { video := { v3 with status := "completed", processing_completed_at := some now }
    task := completeTask t0 now
    frames := results.map (frameRow v3.id)
    objects := results.flatMap (objRowsOf v3.id)
    progressTrace := [0, 100] }

/-- Embedding of `process_video_task` (tasks.py lines 14-145). `meta` is what
`get_video_metadata` returns, `results` the `detections` list of
`process_video`'s results, `uploadKey` the MinIO key of the processed video,
`outputExists` the `os.path.exists(output_path)` check, and `fail` the
failure injection. The `except Exception` handler (lines 129-145) finds both
`task_record` and `video` in `locals()` at every injected site, so it marks
both failed; it deletes nothing. -/
def process_video_task (now : ℕ) (taskId : String) (v : VideoRec)
    (meta : YOLOProcessor.VideoMeta) (results : List FrameResult)
    (uploadKey : String) (outputExists : Bool) (fail : PVFail) : TaskRunState :=
  let t0 := mkTaskRec taskId "video_processing" now
  let v1 : VideoRec := { v with status := "processing", processing_started_at := some now }
  match fail with
  | .atMetadata msg =>
    { video := failVideo v1 msg, task := failTask t0 now msg
      frames := [], objects := [], progressTrace := [0] }
  | .atProcess msg =>
    { video := failVideo (applyMeta v1 meta) msg, task := failTask t0 now msg
      frames := [], objects := [], progressTrace := [0] }
  | .atInsert k msg =>
    let v2 := applyMeta v1 meta
    { video := failVideo v2 msg, task := failTask t0 now msg
      frames := (results.take k).map (frameRow v2.id)
      objects := (results.take k).flatMap (objRowsOf v2.id)
      progressTrace := [0] }
  | .atUpload msg =>
    let v2 := applyMeta v1 meta
    if outputExists then
      { video := failVideo v2 msg, task := failTask t0 now msg
        frames := results.map (frameRow v2.id)
        objects := results.flatMap (objRowsOf v2.id)
        progressTrace := [0] }
    else pvComplete now t0 v2 results uploadKey outputExists
  | .ok => pvComplete now t0 (applyMeta v1 meta) results uploadKey outputExists

/-- Database state left behind by one `extract_frames_task` run. -/
structure EFRunState where
  video : VideoRec
  task : TaskRec
  uploaded : List String
  progressTrace : List ℤ
deriving DecidableEq, Repr

/-- Failure injection for `extract_frames_task`: `atExtract` is
`extract_frames` raising, `atUpload k msg` is the upload of the `(k+1)`-st
frame path raising after `k` uploads succeeded. -/
inductive EFFail where
  | ok
  | atExtract (msg : String)
  | atUpload (k : ℕ) (msg : String)
deriving DecidableEq, Repr

/-- Embedding of `extract_frames_task` (tasks.py lines 148-218). Its `except Exception`
handler (lines 209-218) updates only `task_record`; no statement of the task
body ever assigns to a field of `video`. -/
def extract_frames_task (now : ℕ) (taskId : String) (v : VideoRec)
    (framePaths : List String) (uploadKey : String → String)
    (fail : EFFail) : EFRunState :=
  let t0 := mkTaskRec taskId "frame_extraction" now
  match fail with
  | .atExtract msg =>
    { video := v, task := failTask t0 now msg
      uploaded := [], progressTrace := [0] }
  | .atUpload k msg =>
    { video := v, task := failTask t0 now msg
      uploaded := (framePaths.take k).map uploadKey, progressTrace := [0] }
  | .ok =>
    { video := v, task := completeTask t0 now
      uploaded := framePaths.map uploadKey, progressTrace := [0, 100] }

/-- Database state left behind by one `detect_objects_in_frames_task` run. -/
structure ODRunState where
  video : VideoRec
  task : TaskRec
  objects : List ObjRec
  progressTrace : List ℤ
deriving DecidableEq, Repr

/-- Python's `list(range(0, stop, step))` for `step > 0`. -/
def rangeStep (stop step : ℕ) : List ℕ :=
  (List.range ((stop + step - 1) / step)).map (· * step)

/-- The message of the `NameError` raised at tasks.py line 254:
`cap = cv2.VideoCapture(...)` is executed, but the module's imports
(tasks.py lines 1-9) never import `cv2`. -/
def cv2NameError : String := "name 'cv2' is not defined"

/-- Embedding of `detect_objects_in_frames_task` (tasks.py lines 221-316) as shipped:
the video row is loaded, the `ProcessingTask` row is created as running,
the metadata is read and the default frame list computed (lines 250-252),
and then line 254 references the never-imported name `cv2`, raising
`NameError` before any frame is read. The `except Exception` handler
(lines 310-316) marks only `task_record` failed; no detection is emitted
and `video` is never written. -/
def detect_objects_in_frames_task (now : ℕ) (taskId : String) (v : VideoRec)
    (meta : YOLOProcessor.VideoMeta) (frame_numbers : Option (List ℕ)) :
    ODRunState :=
  let t0 := mkTaskRec taskId "object_detection" now
  let _fns := frame_numbers.getD (rangeStep meta.frame_count.toNat 30)
  { video := v
    task := failTask t0 now cv2NameError
    objects := []
    progressTrace := [0] }

/-- The spot-detect loop of `detect_objects_in_frames_task` (tasks.py lines
254-293) as written: for the `i`-th requested index `fn`, seek and read
(`read fn`; `none` is `ret=False`, as for an index at or beyond the frame
count); on a successful read run `_process_frame`, insert its
`DetectedObject` rows, and write `progress = int((i+1)/len(frame_numbers)*100)`
to the task row. `total` is `len(frame_numbers)`. Returns the inserted rows
and the progress values written, both in order. -/
def spotLoop (vid : String) (read : ℕ → Option Frame)
    (model : Frame → List RawBox) (names : ℕ → String) (total : ℕ) :
    List ℕ → ℕ → List ObjRec × List ℤ
  | [], _ => ([], [])
  | fn :: rest, i =>
    match read fn with
    | some frame =>
      let fr := YOLOProcessor.process_frame names (model frame) fn 0
      let r := spotLoop vid read model names total rest (i + 1)
      (objRows vid fn fr.objects ++ r.1, (((i + 1) * 100 / total : ℕ) : ℤ) :: r.2)
    | none => spotLoop vid read model names total rest (i + 1)

/-- The run of `detect_objects_in_frames_task` from line 254 onward as the
loop is written, i.e. as it would execute were `cv2` in scope (the shipped
module raises `NameError` there instead, see
`detect_objects_in_frames_task`): process the requested (or default) frame
indices, skipping each index whose read returns no frame, then mark the task
completed with `progress=100`. -/
def spot_detect_run (now : ℕ) (taskId : String) (v : VideoRec)
    (read : ℕ → Option Frame) (model : Frame → List RawBox)
    (names : ℕ → String) (total_frames : ℕ)
    (frame_numbers : Option (List ℕ)) : ODRunState :=
  let t0 := mkTaskRec taskId "object_detection" now
  let fns := frame_numbers.getD (rangeStep total_frames 30)
  let r := spotLoop v.id read model names fns.length fns 0
  { video := v
    task := completeTask t0 now
    objects := r.1
    progressTrace := 0 :: r.2 ++ [100] }

/-! ## `minio_client.py`: the blob-store gateway. -/

/-- A structured document, as produced by `json.dump` and read back by
`json.load`. The Python standard library's serialize/parse pair is an
external capability whose round trip on JSON-serializable values is its
contract; the embedding therefore transports the structured document itself
through the staging file and the store. -/
inductive Json where
  | null
  | bool (b : Bool)
  | num (q : ℚ)
  | str (s : String)
  | arr (xs : List Json)
  | obj (fields : List (String × Json))

namespace MinIOClient

/-- The blob store: an association of (bucket, object name) to the stored
document, most recent write first. -/
abbrev Store := List ((String × String) × Json)

/-- Upload `fput_object`: store a document under (bucket, object name). -/
def putStore (s : Store) (bucket objectName : String) (d : Json) : Store :=
  ((bucket, objectName), d) :: s

/-- Retrieval of the most recently stored document under a key. -/
def lookupStore : Store → String → String → Option Json
  | [], _, _ => none
  | ((b, k), d) :: rest, b', k' =>
    if b = b' ∧ k = k' then some d else lookupStore rest b' k'

/-- Value of `settings.MINIO_BUCKET_NAME`, held as `self.default_bucket`. -/
def default_bucket : String := "videos"

/-- Python's `x or dflt` on an optional string argument: `None` and the
empty string both fall back to the default. -/
def pyOr (s : Option String) (dflt : String) : String :=
  match s with
  | none => dflt
  | some v => if v = "" then dflt else v

/-- Python's `str.rfind(c)` on a character list: index of the last occurrence,
`-1` when absent. -/
def rfindChar (c : Char) : List Char → ℤ
  | [] => -1
  | a :: rest =>
    let r := rfindChar c rest
    if r ≥ 0 then r + 1 else if a = c then 0 else -1

/-- Python's `os.path.splitext` (posixpath): split off the extension at the last dot
of the base name, unless every character of the base name before that dot is
itself a dot (so `".bashrc"` has no extension). -/
def splitextCore (p : List Char) : List Char × List Char :=
  let sepIndex := rfindChar '/' p
  let dotIndex := rfindChar '.' p
  if dotIndex > sepIndex then
    let startIdx := (sepIndex + 1).toNat
    if ((p.take dotIndex.toNat).drop startIdx).any (fun a => a ≠ '.') then
      (p.take dotIndex.toNat, p.drop dotIndex.toNat)
    else (p, [])
  else (p, [])

/-- Python's `os.path.splitext` on strings. -/
def splitext (s : String) : String × String :=
  let r := splitextCore s.data
  (String.mk r.1, String.mk r.2)

/-- The exceptions `upload_file` can raise. -/
inductive UploadErr where
  | fileNotFound
  | s3 (msg : String)
deriving DecidableEq, Repr

/-- The object name `upload_file` actually stores under
(minio_client.py lines 60-67): the explicit name, defaulted to the file's
base name; and whenever the effective name equals the base name — because it
was omitted, empty, or passed verbatim — `f"{name}_{uuid.uuid4().hex[:8]}{ext}"`
replaces it, `hex` standing for the 8 random hex characters drawn. -/
def effectiveObjectName (fileBasename : String) (object_name : Option String)
    (hex : String) : String :=
  let objectName := pyOr object_name fileBasename
  if objectName = fileBasename then
    let se := splitext objectName
    se.1 ++ "_" ++ hex ++ se.2
  else objectName

/-- Embedding of `MinIOClient.upload_file` (minio_client.py lines 44-79). `doc` is the
content of the local file at `file_path`, `fileExists` the
`os.path.exists(file_path)` check, `fileBasename` is
`os.path.basename(file_path)`, `transportOk` whether `fput_object` succeeds
(else `S3Error` is logged and re-raised). Returns the updated store and the
returned key `f"{bucket_name}/{object_name}"`. -/
def upload_file (store : Store) (doc : Json) (fileExists : Bool)
    (fileBasename : String) (bucket_name object_name : Option String)
    (hex : String) (transportOk : Bool) : Except UploadErr (Store × String) :=
  if fileExists = false then .error .fileNotFound
  else
    let bucket := pyOr bucket_name default_bucket
    let objectName := effectiveObjectName fileBasename object_name hex
    if transportOk then
      .ok (putStore store bucket objectName doc, bucket ++ "/" ++ objectName)
    else .error (.s3 "upload failed")

/-- Embedding of `MinIOClient.download_file` (minio_client.py lines 81-106): on success
the object's content is written to the destination and `True` returned; a
missing object or transport failure is caught and reported as `False`
(`none` here). -/
def download_file (store : Store) (transportOk : Bool)
    (bucket objectName : String) : Option Json :=
  if transportOk then lookupStore store bucket objectName else none

/-- Embedding of `MinIOClient.upload_video_metadata` (minio_client.py lines 253-276):
`json.dump` the document into a fresh temporary staging file (whose base
name `tmpBasename` carries no path separator), upload it under
`f"metadata/{video_id}.json"` in the default bucket, and — in `finally:` —
always `os.unlink` the staging file. The second component records that the
staging file was removed; it is `true` on every path. -/
def upload_video_metadata (store : Store) (video_id : String) (metadata : Json)
    (tmpBasename hex : String) (transportOk : Bool) :
    Except UploadErr (Store × String) × Bool :=
  let object_name := "metadata/" ++ video_id ++ ".json"
  (upload_file store metadata true tmpBasename (some default_bucket)
    (some object_name) hex transportOk, true)

/-- Embedding of `MinIOClient.get_video_metadata` (minio_client.py lines 278-310):
download `f"metadata/{video_id}.json"` from the default bucket into a fresh
temporary staging file and `json.load` it; a failed download yields `None`.
The `finally:` block always unlinks the staging file (second component). -/
def get_video_metadata (store : Store) (video_id : String)
    (transportOk : Bool) : Option Json × Bool :=
  let object_name := "metadata/" ++ video_id ++ ".json"
  (download_file store transportOk default_bucket object_name, true)

/-- The store left by an upload outcome, the original store when the upload
raised. -/
def storeOf (r : Except UploadErr (Store × String)) (s₀ : Store) : Store :=
  match r with
  | .ok (s, _) => s
  | .error _ => s₀

end MinIOClient

/-! ## Concrete instances used by the verification. -/

/-- Whether an `Except` outcome is a success. -/
def isOkB {ε α : Type} : Except ε α → Bool
  | .ok _ => true
  | .error _ => false

/-- The read stream of an `n`-frame video that decodes fully: `cap.read()`
succeeds `n` times (the `i`-th read yielding buffer `i`) and then reports
`ret=False`. -/
def okReads (n : ℕ) : List ReadResult :=
  (List.range n).map ReadResult.ok

/-- The frame indices selected by the sampling loops: those `i < n` with
`i % k == 0`. -/
def selIdx (k n : ℕ) : List ℕ :=
  (List.range n).filter (fun i => i % k == 0)

/-- A freshly uploaded video row. -/
def vDemo : VideoRec :=
  { id := "vid-1", title := "demo", status := "pending"
    processing_started_at := none, processing_completed_at := none
    error_message := "", duration := none, frame_count := none, fps := none
    resolution := "", file_size := none, processed_minio_key := "" }

/-- Metadata of a 10-frame, 30 fps video. -/
def metaDemo10 : YOLOProcessor.VideoMeta :=
  YOLOProcessor.get_video_metadata 30 10 640 480 4096

/-- Seek-and-read on a 10-frame video: an index at or beyond frame 10
returns `ret=False`. -/
def read10 : ℕ → Option Frame := fun n => if n < 10 then some n else none

/-- A well-formed model box. -/
def boxDemo : RawBox := { x1 := 1, y1 := 2, x2 := 4, y2 := 6, cls := 0, conf := 9/10 }

/-- A degenerate model box: `x2 < x1` and `y2 < y1`. -/
def degenerateBox : RawBox := { x1 := 5, y1 := 2, x2 := 3, y2 := 1, cls := 0, conf := 9/10 }

/-- A model reporting one well-formed box on every frame. -/
def modelDemo : Frame → List RawBox := fun _ => [boxDemo]

/-- A one-class label table. -/
def namesDemo : ℕ → String := fun _ => "person"

/-- A detector whose model call raises on frame 1 and succeeds elsewhere. -/
def detectBoom : Frame → ℕ → Except String FrameResult :=
  fun _ n =>
    if n = 1 then .error "detector failure"
    else .ok { frame_number := n, objects := [], processing_time := 0, object_count := 0 }

/-- A frame result with one detection. -/
def frDemo (n : ℕ) : FrameResult :=
  { frame_number := n
    objects := [{ cls := "person", confidence := 9/10
                  bbox := { x := 1, y := 2, width := 3, height := 4 } }]
    processing_time := 1/2
    object_count := 1 }

/-- Four frame results. -/
def resultsDemo : List FrameResult := [frDemo 0, frDemo 1, frDemo 2, frDemo 3]

/-- A structured metadata document. -/
def mDemo : Json :=
  Json.obj [("duration", Json.num 10), ("title", Json.str "demo")]

/-! ## Lemmas about the frame-processing loops. -/

namespace YOLOProcessor

/-- On a fully decodable stream whose `i`-th buffer is `i`, the processing
loop with a total detector succeeds and returns exactly the results of the
frames at indices `≡ 0 mod k`, in order. -/
theorem pvLoop_mkDetect_range' (model : Frame → List RawBox) (names : ℕ → String)
    (k : ℕ) : ∀ (n m : ℕ),
    pvLoop (mkDetect model names) k ((List.range' m n).map ReadResult.ok) m
      = .ok (((List.range' m n).filter (fun i => i % k == 0)).map
          (fun i => process_frame names (model i) i 0)) := by
  intro n
  induction n with
  | zero => intro m; rfl
  | succ n ih =>
    intro m
    rw [List.range'_succ, List.map_cons, List.filter_cons]
    cases hb : (m % k == 0) with
    | true => simp [pvLoop, hb, mkDetect, ih (m + 1)]
    | false => simp [pvLoop, hb, ih (m + 1)]

/-- A `ret=False` read (decode failure or end of stream) after a decodable
prefix truncates the loop exactly to that prefix, whatever the detector. -/
theorem pvLoop_append_fail (d : Frame → ℕ → Except String FrameResult) (k : ℕ) :
    ∀ (fs : List Frame) (rest : List ReadResult) (m : ℕ),
    pvLoop d k (fs.map ReadResult.ok ++ ReadResult.fail :: rest) m
      = pvLoop d k (fs.map ReadResult.ok) m := by
  intro fs
  induction fs with
  | nil => intro rest m; rfl
  | cons f fs ih =>
    intro rest m
    simp only [List.map_cons, List.cons_append, pvLoop]
    cases hb : (m % k == 0) with
    | true => cases d f m <;> simp [ih]
    | false => simp [ih]

/-- With a total detector the loop never raises. -/
theorem pvLoop_mkDetect_ok (model : Frame → List RawBox) (names : ℕ → String)
    (k : ℕ) : ∀ (fs : List Frame) (m : ℕ),
    ∃ l, pvLoop (mkDetect model names) k (fs.map ReadResult.ok) m = .ok l := by
  intro fs
  induction fs with
  | nil => intro m; exact ⟨[], rfl⟩
  | cons f fs ih =>
    intro m
    obtain ⟨l, hl⟩ := ih (m + 1)
    cases hb : (m % k == 0) with
    | true =>
      exact ⟨process_frame names (model f) m 0 :: l,
        by simp [pvLoop, hb, mkDetect, hl]⟩
    | false => exact ⟨l, by simp [pvLoop, hb, hl]⟩

/-- The extraction loop collects the path of every `k`-th frame of a fully
decodable stream, in order. -/
theorem efLoop_range' (dir : String) (k : ℕ) : ∀ (n m : ℕ),
    efLoop dir k ((List.range' m n).map ReadResult.ok) m
      = ((List.range' m n).filter (fun i => i % k == 0)).map
          (fun i => dir ++ "/frame_" ++ pad6 i ++ ".jpg") := by
  intro n
  induction n with
  | zero => intro m; rfl
  | succ n ih =>
    intro m
    rw [List.range'_succ, List.map_cons, List.filter_cons]
    cases hb : (m % k == 0) with
    | true => simp [efLoop, hb, ih (m + 1)]
    | false => simp [efLoop, hb, ih (m + 1)]

end YOLOProcessor

/-! ## Claim theorems. -/

/-- C3 (counterexample): the claim "a per-frame decode or detection error
mid-stream ... the per-frame detection results already computed are finalized
and returned as a partial result rather than lost" is false for detection
errors: on a 2-frame video whose detector succeeds on frame 0 and raises on
frame 1, `process_video` with interval 1 propagates the exception, so frame
0's already-computed result is lost rather than returned. -/
theorem spec_C3_counterexample :
    (YOLOProcessor.process_video detectBoom 30 2 640 480
        [ReadResult.ok 0, ReadResult.ok 1] 1 (some "out.mp4")).1
      = Except.error "detector failure" := rfl

/-- C3 (amended): in `YOLOProcessor.process_video`, a per-frame decode
failure mid-stream (a read returning `ret=False`) stops iteration and the
per-frame results already computed are finalized and returned as a partial
result — the run on a stream failing after a decodable prefix equals the run
on the prefix alone, and with a total detector it succeeds; the capture
handle and any writer are released on every path; but a per-frame detection
error is not tolerated: the exception propagates (the whole run returns that
error, losing the computed results), though the resources are still
released. -/
theorem spec_C3 (d : Frame → ℕ → Except String FrameResult)
    (model : Frame → List RawBox) (names : ℕ → String)
    (fps : ℚ) (fc w h : ℤ) (fs : List Frame) (rest reads : List ReadResult)
    (k : ℕ) (out : Option String) (e : String) :
    (YOLOProcessor.process_video d fps fc w h
        (fs.map ReadResult.ok ++ ReadResult.fail :: rest) k out
      = YOLOProcessor.process_video d fps fc w h (fs.map ReadResult.ok) k out)
  ∧ (YOLOProcessor.process_video d fps fc w h reads k out).2 = true
  ∧ (YOLOProcessor.pvLoop d k reads 0 = Except.error e →
      YOLOProcessor.process_video d fps fc w h reads k out
        = (Except.error e, true))
  ∧ isOkB (YOLOProcessor.process_video (YOLOProcessor.mkDetect model names)
      fps fc w h (fs.map ReadResult.ok) k out).1 = true := by
  refine ⟨?_, ?_, ?_, ?_⟩
  · unfold YOLOProcessor.process_video
    rw [YOLOProcessor.pvLoop_append_fail d k fs rest 0]
  · unfold YOLOProcessor.process_video
    cases YOLOProcessor.pvLoop d k reads 0 <;> rfl
  · intro he
    unfold YOLOProcessor.process_video
    rw [he]
  · obtain ⟨l, hl⟩ := YOLOProcessor.pvLoop_mkDetect_ok model names k fs 0
    unfold YOLOProcessor.process_video
    rw [hl]
    rfl

/-- C3 witness: concrete detection error on frame 1 of a 2-frame stream. -/
theorem spec_C3_witness :
    YOLOProcessor.process_video detectBoom 30 2 640 480
        [ReadResult.ok 0, ReadResult.ok 1] 1 none
      = (Except.error "detector failure", true) :=
  (spec_C3 detectBoom modelDemo namesDemo 30 2 640 480 [] []
    [ReadResult.ok 0, ReadResult.ok 1] 1 none "detector failure").2.2.1 rfl

/-- C4: for every sampling interval `k ≥ 1` and fully decodable `n`-frame
video, `process_video` iterates in increasing index order from 0 and selects
frame `i` for detection iff `i mod k == 0`: its detections are exactly the
per-frame results of the indices `{0, k, 2k, ...} ∩ [0, n)` in strictly
increasing order, `processed_frames` counts them, and `extract_frames`
selects the same indices for extraction. -/
theorem spec_C4 (model : Frame → List RawBox) (names : ℕ → String)
    (fps : ℚ) (fc w h : ℤ) (dir : String) (out : Option String)
    (k n : ℕ) (hk : 0 < k) :
    ((YOLOProcessor.process_video (YOLOProcessor.mkDetect model names)
        fps fc w h (okReads n) k out).1
      = Except.ok
          { total_frames := fc
            processed_frames := (selIdx k n).length
            detections := (selIdx k n).map
              (fun i => YOLOProcessor.process_frame names (model i) i 0)
            video_metadata := YOLOProcessor.PVMeta.ofProps fps fc w h })
  ∧ selIdx k n = (List.range n).filter (fun i => decide (k ∣ i))
  ∧ List.Sorted (· < ·) (selIdx k n)
  ∧ (YOLOProcessor.extract_frames dir (okReads n) k).1
      = (selIdx k n).map
          (fun i => dir ++ "/frame_" ++ YOLOProcessor.pad6 i ++ ".jpg") := by
  have hsel : selIdx k n
      = (List.range' 0 n).filter (fun i => i % k == 0) := by
    rw [selIdx, List.range_eq_range']
  refine ⟨?_, ?_, ?_, ?_⟩
  · unfold YOLOProcessor.process_video
    rw [show okReads n = (List.range' 0 n).map ReadResult.ok from by
          rw [okReads, List.range_eq_range'],
        YOLOProcessor.pvLoop_mkDetect_range' model names k n 0, hsel]
    simp
  · rw [selIdx]
    refine List.filter_congr ?_
    intro i _
    rw [Bool.eq_iff_iff]
    simp [Nat.dvd_iff_mod_eq_zero]
  · exact (List.pairwise_lt_range n).filter _
  · unfold YOLOProcessor.extract_frames
    rw [show okReads n = (List.range' 0 n).map ReadResult.ok from by
          rw [okReads, List.range_eq_range'],
        YOLOProcessor.efLoop_range' dir k n 0, hsel]

/-- C4 witness: interval 2 on a 5-frame video selects frames 0, 2, 4. -/
theorem spec_C4_witness :
    0 < 2
  ∧ (((YOLOProcessor.process_video (YOLOProcessor.mkDetect modelDemo namesDemo)
        30 5 640 480 (okReads 5) 2 none).1
      = Except.ok
          { total_frames := 5
            processed_frames := (selIdx 2 5).length
            detections := (selIdx 2 5).map
              (fun i => YOLOProcessor.process_frame namesDemo (modelDemo i) i 0)
            video_metadata := YOLOProcessor.PVMeta.ofProps 30 5 640 480 })
    ∧ selIdx 2 5 = (List.range 5).filter (fun i => decide (2 ∣ i))
    ∧ List.Sorted (· < ·) (selIdx 2 5)
    ∧ (YOLOProcessor.extract_frames "/out" (okReads 5) 2).1
        = (selIdx 2 5).map
            (fun i => "/out" ++ "/frame_" ++ YOLOProcessor.pad6 i ++ ".jpg")) :=
  ⟨by decide, spec_C4 modelDemo namesDemo 30 5 640 480 "/out" none 2 5 (by decide)⟩

/-- C5: the metadata computed by `get_video_metadata`, as well as the
metadata embedded in `process_video`'s result, satisfies
`duration = frame_count / fps` whenever `fps > 0` and `duration = 0`
whenever `fps ≤ 0`. -/
theorem spec_C5 (fps : ℚ) (fc w h fsz : ℤ) (model : Frame → List RawBox)
    (names : ℕ → String) (out : Option String) :
    (0 < fps →
      (YOLOProcessor.get_video_metadata fps fc w h fsz).duration = (fc : ℚ) / fps)
  ∧ (fps ≤ 0 →
      (YOLOProcessor.get_video_metadata fps fc w h fsz).duration = 0)
  ∧ (0 < fps →
      (YOLOProcessor.PVMeta.ofProps fps fc w h).duration = (fc : ℚ) / fps)
  ∧ (fps ≤ 0 →
      (YOLOProcessor.PVMeta.ofProps fps fc w h).duration = 0)
  ∧ (YOLOProcessor.process_video (YOLOProcessor.mkDetect model names)
        fps fc w h [] 1 out).1
      = Except.ok
          { total_frames := fc, processed_frames := 0, detections := []
            video_metadata := YOLOProcessor.PVMeta.ofProps fps fc w h } := by
  refine ⟨fun hpos => ?_, fun hle => ?_, fun hpos => ?_, fun hle => ?_, rfl⟩
  · simp [YOLOProcessor.get_video_metadata, hpos]
  · simp [YOLOProcessor.get_video_metadata, not_lt_of_le hle]
  · simp [YOLOProcessor.PVMeta.ofProps, hpos]
  · simp [YOLOProcessor.PVMeta.ofProps, not_lt_of_le hle]

/-- C5 witness: a 300-frame, 30 fps video has duration 300/30; fps = -1
gives duration 0. -/
theorem spec_C5_witness :
    (YOLOProcessor.get_video_metadata 30 300 1920 1080 999).duration
      = (300 : ℚ) / 30
  ∧ (YOLOProcessor.get_video_metadata (-1) 300 1920 1080 999).duration = 0 :=
  ⟨(spec_C5 30 300 1920 1080 999 modelDemo namesDemo none).1 (by norm_num),
   (spec_C5 (-1) 300 1920 1080 999 modelDemo namesDemo none).2.1 (by norm_num)⟩

/-- C6 (counterexample): the claim "every Detection produced by the detector
has ... width ≥ 0 and height ≥ 0, for every frame and every model output" is
false: `_process_frame` propagates a degenerate model box (`x2 < x1`,
`y2 < y1`) with negative width and height instead of rejecting or clamping
it. -/
theorem spec_C6_counterexample :
    ((YOLOProcessor.process_frame namesDemo [degenerateBox] 0 0).objects.all
      fun o => decide (0 ≤ o.bbox.width ∧ 0 ≤ o.bbox.height)) = false := by
  have h : ¬(0 ≤ (3 : ℚ) - 5 ∧ 0 ≤ (1 : ℚ) - 2) := by norm_num
  simp [YOLOProcessor.process_frame, YOLOProcessor.convertBox, degenerateBox,
    namesDemo, h]

/-- C6 (amended): every Detection produced by `_process_frame` has
`width = x2 - x1 ≥ 0` and `height = y2 - y1 ≥ 0` provided every box of the
model output satisfies `x1 ≤ x2` and `y1 ≤ y2`; the code converts the
coordinates verbatim and neither rejects nor clamps degenerate boxes, so a
model output violating that assumption propagates negative sizes. -/
theorem spec_C6 (names : ℕ → String) (modelOut : List RawBox) (n : ℕ) (pt : ℚ)
    (h : (modelOut.all fun b => decide (b.x1 ≤ b.x2 ∧ b.y1 ≤ b.y2)) = true) :
    ((YOLOProcessor.process_frame names modelOut n pt).objects.all
      fun o => decide (0 ≤ o.bbox.width ∧ 0 ≤ o.bbox.height)) = true := by
  rw [List.all_eq_true] at h ⊢
  intro o ho
  simp only [YOLOProcessor.process_frame, List.mem_map] at ho
  obtain ⟨b, hb, rfl⟩ := ho
  have hbb := h b hb
  simp only [decide_eq_true_eq] at hbb ⊢
  exact ⟨by simpa [YOLOProcessor.convertBox, sub_nonneg] using hbb.1,
         by simpa [YOLOProcessor.convertBox, sub_nonneg] using hbb.2⟩

/-- C6 witness: a well-formed box yields nonnegative width and height. -/
theorem spec_C6_witness :
    (([boxDemo].all fun b => decide (b.x1 ≤ b.x2 ∧ b.y1 ≤ b.y2)) = true)
  ∧ ((YOLOProcessor.process_frame namesDemo [boxDemo] 0 0).objects.all
      fun o => decide (0 ≤ o.bbox.width ∧ 0 ≤ o.bbox.height)) = true :=
  ⟨by decide, spec_C6 namesDemo [boxDemo] 0 0 (by decide)⟩

/-! ## Lemmas about the spot-detect loop's progress writes. -/

/-- Every progress value written from iteration `i` on is at least
`(i+1)*100/total`. -/
theorem spotLoop_trace_lb (vid : String) (read : ℕ → Option Frame)
    (model : Frame → List RawBox) (names : ℕ → String) (total : ℕ) :
    ∀ (fns : List ℕ) (i : ℕ) (p : ℤ),
    p ∈ (spotLoop vid read model names total fns i).2 →
    (((i + 1) * 100 / total : ℕ) : ℤ) ≤ p := by
  intro fns
  induction fns with
  | nil => intro i p hp; simp [spotLoop] at hp
  | cons fn rest ih =>
    intro i p hp
    have hstep : (((i + 1) * 100 / total : ℕ) : ℤ)
        ≤ (((i + 1 + 1) * 100 / total : ℕ) : ℤ) := by
      have h0 : (i + 1) * 100 / total ≤ (i + 1 + 1) * 100 / total :=
        Nat.div_le_div_right (Nat.mul_le_mul_right 100 (Nat.le_succ (i + 1)))
      exact_mod_cast h0
    rw [spotLoop] at hp
    cases hr : read fn with
    | some frame =>
      rw [hr] at hp
      simp only [List.mem_cons] at hp
      rcases hp with rfl | hp
      · exact le_refl _
      · exact le_trans hstep (ih (i + 1) p hp)
    | none =>
      rw [hr] at hp
      exact le_trans hstep (ih (i + 1) p hp)

/-- The progress values written by the loop are non-decreasing. -/
theorem spotLoop_trace_chain (vid : String) (read : ℕ → Option Frame)
    (model : Frame → List RawBox) (names : ℕ → String) (total : ℕ) :
    ∀ (fns : List ℕ) (i : ℕ),
    List.Chain' (· ≤ ·) (spotLoop vid read model names total fns i).2 := by
  intro fns
  induction fns with
  | nil => intro i; simp [spotLoop]
  | cons fn rest ih =>
    intro i
    rw [spotLoop]
    cases hr : read fn with
    | some frame =>
      refine List.chain'_cons'.mpr ⟨?_, ih (i + 1)⟩
      intro y hy
      have hymem := List.mem_of_mem_head? hy
      have := spotLoop_trace_lb vid read model names total rest (i + 1) y hymem
      refine le_trans ?_ this
      have h0 : (i + 1) * 100 / total ≤ (i + 1 + 1) * 100 / total :=
        Nat.div_le_div_right (Nat.mul_le_mul_right 100 (Nat.le_succ (i + 1)))
      exact_mod_cast h0
    | none => exact ih (i + 1)

/-- If `total` bounds the number of remaining iterations, every progress
value written from iteration `i` on lies within 0–100. -/
theorem spotLoop_trace_bounds (vid : String) (read : ℕ → Option Frame)
    (model : Frame → List RawBox) (names : ℕ → String) (total : ℕ) :
    ∀ (fns : List ℕ) (i : ℕ), i + fns.length ≤ total →
    ∀ p ∈ (spotLoop vid read model names total fns i).2, 0 ≤ p ∧ p ≤ 100 := by
  intro fns
  induction fns with
  | nil => intro i _ p hp; simp [spotLoop] at hp
  | cons fn rest ih =>
    intro i hle p hp
    have hrest : (i + 1) + rest.length ≤ total := by
      simpa [Nat.add_comm, Nat.add_left_comm, Nat.add_assoc] using hle
    rw [spotLoop] at hp
    cases hr : read fn with
    | some frame =>
      rw [hr] at hp
      simp only [List.mem_cons] at hp
      rcases hp with rfl | hp
      · refine ⟨Int.natCast_nonneg _, ?_⟩
        have hi1 : i + 1 ≤ total := by omega
        have htpos : 0 < total := lt_of_lt_of_le (Nat.succ_pos i) hi1
        have h1 : (i + 1) * 100 ≤ total * 100 := Nat.mul_le_mul_right 100 hi1
        have h2 : (i + 1) * 100 / total ≤ total * 100 / total :=
          Nat.div_le_div_right h1
        rw [Nat.mul_div_cancel_left 100 htpos] at h2
        exact_mod_cast h2
      · exact ih (i + 1) hrest p hp
    | none =>
      rw [hr] at hp
      exact ih (i + 1) hrest p hp

/-- C1: false of the shipped code — `detect_objects_in_frames_task` (the
spec's spot-detect) on a 10-frame video with `frameIndices=[0, 999999]` does
not return detections for frame 0 with a 'completed' task: tasks.py never
imports `cv2`, so line 254 raises `NameError` before any frame is read; the
task record ends 'failed' with that message and no detection is emitted.
The loop body as written (executed here as `spot_detect_run`, i.e. with
`cv2` in scope) would satisfy the claim: the out-of-range index 999999 is
skipped (its read yields `ret=False`), detections are emitted for frame 0
only, and the task completes. -/
theorem spec_C1 :
    (detect_objects_in_frames_task 3 "tid" vDemo metaDemo10
        (some [0, 999999])).task.status = "failed"
  ∧ (detect_objects_in_frames_task 3 "tid" vDemo metaDemo10
        (some [0, 999999])).task.error_message = cv2NameError
  ∧ (detect_objects_in_frames_task 3 "tid" vDemo metaDemo10
        (some [0, 999999])).objects = []
  ∧ (spot_detect_run 3 "tid" vDemo read10 modelDemo namesDemo 10
        (some [0, 999999])).task.status = "completed"
  ∧ ((spot_detect_run 3 "tid" vDemo read10 modelDemo namesDemo 10
        (some [0, 999999])).objects.map fun o => o.frame_number) = [0]
  ∧ (spot_detect_run 3 "tid" vDemo read10 modelDemo namesDemo 10
        (some [0, 999999])).progressTrace = [0, 50, 100] :=
  ⟨rfl, rfl, rfl, rfl, rfl, rfl⟩

/-- C2: if `process_video_task` hits an unhandled error after the Video row
was loaded and the ProcessingTask row was created — at the metadata read, at
`process_video`, while inserting the rows of some frame result, or at the
processed-video upload — then the task record ends with status 'failed',
`completed_at = now` and `error_message` the cause; the video row ends
'failed' with the same `error_message`; and exactly the ProcessedFrame and
DetectedObject rows created before the error remain, untouched. -/
theorem spec_C2 (now : ℕ) (taskId : String) (v : VideoRec)
    (meta : YOLOProcessor.VideoMeta) (results : List FrameResult)
    (uploadKey : String) (outputExists : Bool) (fail : PVFail)
    (h : fail.fires outputExists = true) :
    (process_video_task now taskId v meta results uploadKey outputExists fail).task.status
        = "failed"
  ∧ (process_video_task now taskId v meta results uploadKey outputExists fail).task.completed_at
        = some now
  ∧ (process_video_task now taskId v meta results uploadKey outputExists fail).task.error_message
        = fail.msg
  ∧ (process_video_task now taskId v meta results uploadKey outputExists fail).video.status
        = "failed"
  ∧ (process_video_task now taskId v meta results uploadKey outputExists fail).video.error_message
        = fail.msg
  ∧ (process_video_task now taskId v meta results uploadKey outputExists fail).frames
        = (fail.persisted results).map (frameRow v.id)
  ∧ (process_video_task now taskId v meta results uploadKey outputExists fail).objects
        = (fail.persisted results).flatMap (objRowsOf v.id) := by
  cases fail with
  | ok => simp [PVFail.fires] at h
  | atMetadata msg => exact ⟨rfl, rfl, rfl, rfl, rfl, rfl, rfl⟩
  | atProcess msg => exact ⟨rfl, rfl, rfl, rfl, rfl, rfl, rfl⟩
  | atInsert k msg => exact ⟨rfl, rfl, rfl, rfl, rfl, rfl, rfl⟩
  | atUpload msg =>
    have hx : outputExists = true := by simpa [PVFail.fires] using h
    subst hx
    exact ⟨rfl, rfl, rfl, rfl, rfl, rfl, rfl⟩

/-- C2 witness: a run that throws while persisting the fourth frame result
leaves the first three frames' rows intact and marks task and video
failed with the cause. -/
theorem spec_C2_witness :
    (PVFail.atInsert 3 "boom").fires true = true
  ∧ ((process_video_task 7 "tid" vDemo metaDemo10 resultsDemo "key" true
        (PVFail.atInsert 3 "boom")).task.status = "failed"
    ∧ (process_video_task 7 "tid" vDemo metaDemo10 resultsDemo "key" true
        (PVFail.atInsert 3 "boom")).task.completed_at = some 7
    ∧ (process_video_task 7 "tid" vDemo metaDemo10 resultsDemo "key" true
        (PVFail.atInsert 3 "boom")).task.error_message
          = (PVFail.atInsert 3 "boom").msg
    ∧ (process_video_task 7 "tid" vDemo metaDemo10 resultsDemo "key" true
        (PVFail.atInsert 3 "boom")).video.status = "failed"
    ∧ (process_video_task 7 "tid" vDemo metaDemo10 resultsDemo "key" true
        (PVFail.atInsert 3 "boom")).video.error_message
          = (PVFail.atInsert 3 "boom").msg
    ∧ (process_video_task 7 "tid" vDemo metaDemo10 resultsDemo "key" true
        (PVFail.atInsert 3 "boom")).frames
          = ((PVFail.atInsert 3 "boom").persisted resultsDemo).map (frameRow vDemo.id)
    ∧ (process_video_task 7 "tid" vDemo metaDemo10 resultsDemo "key" true
        (PVFail.atInsert 3 "boom")).objects
          = ((PVFail.atInsert 3 "boom").persisted resultsDemo).flatMap (objRowsOf vDemo.id)) :=
  ⟨rfl, spec_C2 7 "tid" vDemo metaDemo10 resultsDemo "key" true
    (PVFail.atInsert 3 "boom") rfl⟩

/-- C7: within a single job execution, the progress values written to the
job's ProcessingTask record are monotonically non-decreasing, stay within
0–100, and end at exactly 100 when the job completes: this holds for the
spot-detect run (whatever frames are requested and whichever reads succeed),
for the successful `process_video_task` run (trace `[0, 100]`), and the
shipped `detect_objects_in_frames_task` (which fails at the `cv2`
reference) writes only the creation default 0. -/
theorem spec_C7 (now : ℕ) (taskId : String) (v : VideoRec)
    (read : ℕ → Option Frame) (model : Frame → List RawBox)
    (names : ℕ → String) (total_frames : ℕ)
    (frame_numbers : Option (List ℕ)) (meta : YOLOProcessor.VideoMeta)
    (results : List FrameResult) (uploadKey : String) (outputExists : Bool) :
    List.Chain' (· ≤ ·)
      (spot_detect_run now taskId v read model names total_frames
        frame_numbers).progressTrace
  ∧ ((spot_detect_run now taskId v read model names total_frames
        frame_numbers).progressTrace.all
          fun p => decide (0 ≤ p ∧ p ≤ 100)) = true
  ∧ (spot_detect_run now taskId v read model names total_frames
        frame_numbers).progressTrace.getLast? = some 100
  ∧ (spot_detect_run now taskId v read model names total_frames
        frame_numbers).task.status = "completed"
  ∧ (spot_detect_run now taskId v read model names total_frames
        frame_numbers).task.progress = 100
  ∧ (process_video_task now taskId v meta results uploadKey outputExists
        PVFail.ok).progressTrace = [0, 100]
  ∧ (process_video_task now taskId v meta results uploadKey outputExists
        PVFail.ok).task.status = "completed"
  ∧ (process_video_task now taskId v meta results uploadKey outputExists
        PVFail.ok).task.progress = 100
  ∧ (detect_objects_in_frames_task now taskId v meta
        frame_numbers).progressTrace = [0] := by
  set fns := frame_numbers.getD (rangeStep total_frames 30) with hfns
  have hbounds := spotLoop_trace_bounds v.id read model names fns.length fns 0
    (by simp)
  have hchain := spotLoop_trace_chain v.id read model names fns.length fns 0
  have htr : (spot_detect_run now taskId v read model names total_frames
      frame_numbers).progressTrace
      = 0 :: (spotLoop v.id read model names fns.length fns 0).2 ++ [100] := rfl
  set tr := (spotLoop v.id read model names fns.length fns 0).2 with htrdef
  refine ⟨?_, ?_, ?_, rfl, rfl, rfl, rfl, rfl, rfl⟩
  · rw [htr]
    refine List.chain'_cons'.mpr ⟨?_, ?_⟩
    · intro y hy
      rcases tr with _ | ⟨a, tr'⟩
      · simp at hy
        omega
      · simp at hy
        subst hy
        exact (hbounds a (by simp)).1
    · refine List.chain'_append.mpr ⟨hchain, List.chain'_singleton 100, ?_⟩
      intro x hx y hy
      simp at hy
      subst hy
      exact (hbounds x (List.mem_of_mem_getLast? hx)).2
  · rw [htr, List.all_eq_true]
    intro p hp
    rw [decide_eq_true_eq]
    rcases List.mem_cons.mp hp with rfl | hp'
    · exact ⟨le_refl 0, by norm_num⟩
    · rcases List.mem_append.mp hp' with hmem | hmem
      · exact hbounds p hmem
      · have h100 := List.mem_singleton.mp hmem
        subst h100
        exact ⟨by norm_num, le_refl _⟩
  · rw [htr, show (0 : ℤ) :: tr ++ [100] = ((0 : ℤ) :: tr) ++ [100] from rfl]
    exact List.getLast?_concat _

/-- C8: the frame-extraction and object-detection jobs never modify the
owning Video record: on success and on every failure they write only their
own ProcessingTask record (and, for object detection, DetectedObject rows),
leaving the Video row exactly as loaded — both for the shipped
`detect_objects_in_frames_task` and for the spot-detect loop as written. -/
theorem spec_C8 (now : ℕ) (taskId : String) (v : VideoRec)
    (framePaths : List String) (uploadKey : String → String) (efail : EFFail)
    (meta : YOLOProcessor.VideoMeta) (frame_numbers : Option (List ℕ))
    (read : ℕ → Option Frame) (model : Frame → List RawBox)
    (names : ℕ → String) (total_frames : ℕ) :
    (extract_frames_task now taskId v framePaths uploadKey efail).video = v
  ∧ (detect_objects_in_frames_task now taskId v meta frame_numbers).video = v
  ∧ (spot_detect_run now taskId v read model names total_frames
        frame_numbers).video = v := by
  refine ⟨?_, rfl, rfl⟩
  cases efail <;> rfl

/-! ## Lemmas about the blob-store gateway. -/

/-- Splitting at the extension point concatenates back to the input. -/
theorem splitextCore_append (p : List Char) :
    (MinIOClient.splitextCore p).1 ++ (MinIOClient.splitextCore p).2 = p := by
  rw [MinIOClient.splitextCore]
  split
  · dsimp only
    split
    · exact List.take_append_drop _ p
    · simp
  · simp

/-- String construction commutes with list append. -/
theorem mk_append_mk (a b : List Char) :
    String.mk a ++ String.mk b = String.mk (a ++ b) := rfl

/-- Rebuilding a string from its characters is the identity. -/
theorem mk_data (s : String) : String.mk s.data = s := by
  cases s
  rfl

/-- The root and extension of `splitext` concatenate back to the input. -/
theorem splitext_append (s : String) :
    (MinIOClient.splitext s).1 ++ (MinIOClient.splitext s).2 = s := by
  rw [MinIOClient.splitext, mk_append_mk, splitextCore_append, mk_data]

/-- With no explicit object name, `upload_file` stores under the base name
with the random suffix spliced in before the extension. -/
theorem effectiveObjectName_none_eq (b hex : String) :
    MinIOClient.effectiveObjectName b none hex
      = (MinIOClient.splitext b).1 ++ "_" ++ hex ++ (MinIOClient.splitext b).2 := by
  simp [MinIOClient.effectiveObjectName, MinIOClient.pyOr]

/-- Passing exactly the base name as the object name triggers the same
random-suffix renaming. -/
theorem effectiveObjectName_some_self_eq (b hex : String) :
    MinIOClient.effectiveObjectName b (some b) hex
      = (MinIOClient.splitext b).1 ++ "_" ++ hex ++ (MinIOClient.splitext b).2 := by
  by_cases hb : b = ""
  · subst hb
    simp [MinIOClient.effectiveObjectName, MinIOClient.pyOr]
  · simp [MinIOClient.effectiveObjectName, MinIOClient.pyOr, hb]

/-- The suffixed name is one-plus-`hex`-length characters longer than the
base name, hence never equal to it. -/
theorem suffixed_ne (b hex : String) :
    (MinIOClient.splitext b).1 ++ "_" ++ hex ++ (MinIOClient.splitext b).2 ≠ b := by
  intro hEq
  have hlen := congrArg String.length hEq
  have hb := congrArg String.length (splitext_append b)
  have h1 : ("_" : String).length = 1 := rfl
  simp only [String.length_append, h1] at hlen hb
  omega

/-- Reading a key back right after storing it yields the stored document. -/
theorem lookupStore_put (s : MinIOClient.Store) (b k : String) (d : Json) :
    MinIOClient.lookupStore (MinIOClient.putStore s b k d) b k = some d := by
  simp [MinIOClient.putStore, MinIOClient.lookupStore]

/-- The metadata object name contains a path separator. -/
theorem slash_mem_metadata_name (video_id : String) :
    '/' ∈ ("metadata/" ++ video_id ++ ".json").data := by
  rw [String.data_append, String.data_append]
  exact List.mem_append.mpr (Or.inl (List.mem_append.mpr (Or.inl (by decide))))

/-- The metadata object name is never the empty string. -/
theorem metadata_name_ne_empty (video_id : String) :
    ("metadata/" ++ video_id ++ ".json") ≠ "" := by
  intro hEq
  have hmem := slash_mem_metadata_name video_id
  rw [hEq] at hmem
  simp at hmem

/-- An explicitly supplied, nonempty object name that differs from the base
name is used verbatim by `upload_file`. -/
theorem upload_file_explicit (store : MinIOClient.Store) (doc : Json)
    (fileBasename : String) (bucket_name : Option String) (hex obj : String)
    (h1 : obj ≠ "") (h2 : obj ≠ fileBasename) :
    MinIOClient.upload_file store doc true fileBasename bucket_name (some obj) hex true
      = Except.ok (MinIOClient.putStore store
          (MinIOClient.pyOr bucket_name MinIOClient.default_bucket) obj doc,
        MinIOClient.pyOr bucket_name MinIOClient.default_bucket ++ "/" ++ obj) := by
  have e : MinIOClient.effectiveObjectName fileBasename (some obj) hex = obj := by
    rw [MinIOClient.effectiveObjectName,
      show MinIOClient.pyOr (some obj) fileBasename = obj from by
        simp [MinIOClient.pyOr, h1],
      if_neg h2]
  calc
    MinIOClient.upload_file store doc true fileBasename bucket_name (some obj) hex true
        = Except.ok (MinIOClient.putStore store
            (MinIOClient.pyOr bucket_name MinIOClient.default_bucket)
            (MinIOClient.effectiveObjectName fileBasename (some obj) hex) doc,
          MinIOClient.pyOr bucket_name MinIOClient.default_bucket ++ "/"
            ++ MinIOClient.effectiveObjectName fileBasename (some obj) hex) := rfl
    _ = _ := by rw [e]

/-- C9: writing a structured metadata document through the blob-store
metadata path and reading it back yields the same document: the document
travels untouched to the key `metadata/<video-id>.json` of the default
bucket (the staging file's base name carries no path separator, so
`upload_file` never renames the explicitly supplied key), and the temporary
staging files of both operations are removed on every outcome, success or
failure. -/
theorem spec_C9 (store : MinIOClient.Store) (video_id : String) (m : Json)
    (tmpBasename hex : String) (h : '/' ∉ tmpBasename.data) :
    (MinIOClient.get_video_metadata
        (MinIOClient.storeOf
          (MinIOClient.upload_video_metadata store video_id m tmpBasename hex true).1
          store)
        video_id true).1 = some m
  ∧ (MinIOClient.upload_video_metadata store video_id m tmpBasename hex true).2 = true
  ∧ (MinIOClient.upload_video_metadata store video_id m tmpBasename hex false).2 = true
  ∧ MinIOClient.get_video_metadata store video_id false = (none, true) := by
  have hne := metadata_name_ne_empty video_id
  have hnb : ("metadata/" ++ video_id ++ ".json") ≠ tmpBasename := by
    intro hEq
    exact h (hEq ▸ slash_mem_metadata_name video_id)
  refine ⟨?_, rfl, rfl, rfl⟩
  have hup : (MinIOClient.upload_video_metadata store video_id m tmpBasename hex true).1
      = Except.ok (MinIOClient.putStore store MinIOClient.default_bucket
          ("metadata/" ++ video_id ++ ".json") m,
        MinIOClient.default_bucket ++ "/" ++ ("metadata/" ++ video_id ++ ".json")) := by
    rw [show (MinIOClient.upload_video_metadata store video_id m tmpBasename hex true).1
        = MinIOClient.upload_file store m true tmpBasename
            (some MinIOClient.default_bucket)
            (some ("metadata/" ++ video_id ++ ".json")) hex true from rfl]
    rw [upload_file_explicit store m tmpBasename (some MinIOClient.default_bucket)
      hex ("metadata/" ++ video_id ++ ".json") hne hnb]
    rfl
  rw [show (MinIOClient.get_video_metadata
      (MinIOClient.storeOf
        (MinIOClient.upload_video_metadata store video_id m tmpBasename hex true).1
        store)
      video_id true).1
    = MinIOClient.download_file
        (MinIOClient.storeOf
          (MinIOClient.upload_video_metadata store video_id m tmpBasename hex true).1
          store)
        true MinIOClient.default_bucket ("metadata/" ++ video_id ++ ".json") from rfl]
  rw [hup]
  exact lookupStore_put store MinIOClient.default_bucket
    ("metadata/" ++ video_id ++ ".json") m

/-- C9 witness: a concrete round trip through a fresh store. -/
theorem spec_C9_witness :
    ('/' ∉ "tmpa1.json".data)
  ∧ ((MinIOClient.get_video_metadata
        (MinIOClient.storeOf
          (MinIOClient.upload_video_metadata [] "v1" mDemo "tmpa1.json" "abcd1234" true).1
          [])
        "v1" true).1 = some mDemo
    ∧ (MinIOClient.upload_video_metadata [] "v1" mDemo "tmpa1.json" "abcd1234" true).2 = true
    ∧ (MinIOClient.upload_video_metadata [] "v1" mDemo "tmpa1.json" "abcd1234" false).2 = true
    ∧ MinIOClient.get_video_metadata [] "v1" false = (none, true)) :=
  ⟨by decide, spec_C9 [] "v1" mDemo "tmpa1.json" "abcd1234" (by decide)⟩

/-- C10: `upload_file` uses an explicitly supplied object name verbatim only
when it differs from the uploaded file's base name; whenever the effective
object name equals `os.path.basename(file_path)` — because it was omitted or
passed exactly as the base name — the random 8-hex-character suffix (with a
joining underscore) is spliced in before the extension, and the stored name
is never the name implied by the base name itself. -/
theorem spec_C10 (store : MinIOClient.Store) (doc : Json)
    (fileBasename : String) (bucket_name : Option String) (hex obj : String) :
    (obj ≠ "" → obj ≠ fileBasename →
      MinIOClient.upload_file store doc true fileBasename bucket_name (some obj) hex true
        = Except.ok (MinIOClient.putStore store
            (MinIOClient.pyOr bucket_name MinIOClient.default_bucket) obj doc,
          MinIOClient.pyOr bucket_name MinIOClient.default_bucket ++ "/" ++ obj))
  ∧ MinIOClient.effectiveObjectName fileBasename none hex
      = (MinIOClient.splitext fileBasename).1 ++ "_" ++ hex
          ++ (MinIOClient.splitext fileBasename).2
  ∧ MinIOClient.effectiveObjectName fileBasename (some fileBasename) hex
      = (MinIOClient.splitext fileBasename).1 ++ "_" ++ hex
          ++ (MinIOClient.splitext fileBasename).2
  ∧ MinIOClient.effectiveObjectName fileBasename none hex ≠ fileBasename
  ∧ MinIOClient.upload_file store doc true fileBasename bucket_name none hex true
      = Except.ok (MinIOClient.putStore store
          (MinIOClient.pyOr bucket_name MinIOClient.default_bucket)
          (MinIOClient.effectiveObjectName fileBasename none hex) doc,
        MinIOClient.pyOr bucket_name MinIOClient.default_bucket ++ "/"
          ++ MinIOClient.effectiveObjectName fileBasename none hex) := by
  refine ⟨fun h1 h2 => upload_file_explicit store doc fileBasename bucket_name hex obj h1 h2,
    effectiveObjectName_none_eq fileBasename hex,
    effectiveObjectName_some_self_eq fileBasename hex, ?_, rfl⟩
  rw [effectiveObjectName_none_eq]
  exact suffixed_ne fileBasename hex

/-- C10 witness: an explicit distinct name is stored verbatim; an omitted
name is stored under a suffixed name different from the base name. -/
theorem spec_C10_witness :
    ("video.mp4" ≠ "")
  ∧ ("video.mp4" ≠ "clip.mp4")
  ∧ MinIOClient.upload_file [] mDemo true "clip.mp4" (some "processed-videos")
      (some "video.mp4") "abcd1234" true
      = Except.ok (MinIOClient.putStore []
          (MinIOClient.pyOr (some "processed-videos") MinIOClient.default_bucket)
          "video.mp4" mDemo,
        MinIOClient.pyOr (some "processed-videos") MinIOClient.default_bucket
          ++ "/" ++ "video.mp4")
  ∧ MinIOClient.effectiveObjectName "clip.mp4" none "abcd1234" ≠ "clip.mp4" :=
  ⟨by decide, by decide,
   (spec_C10 [] mDemo "clip.mp4" (some "processed-videos") "abcd1234" "video.mp4").1
     (by decide) (by decide),
   (spec_C10 [] mDemo "clip.mp4" (some "processed-videos") "abcd1234" "video.mp4").2.2.2.1⟩

end VideoApp

